import Mathlib

/-!
Shallow embedding of the data pipeline of `src/uber_dashboard.py`:
`load_data`, `apply_filters`, and the aggregation queries behind the donut,
trend and location charts. A DataFrame is a list of records; numeric columns
are rationals; a nullable cell is an `Option`.
-/

/-- Raw CSV row, viewed after the header strip/rename of `load_data`. A
parse-sensitive cell is represented by its parse result: `date` is `some t`
(epoch seconds) exactly when `pd.to_datetime` would parse the string, `none`
when it would raise; `fare`, `distance`, `duration` are `some q` exactly when
`pd.to_numeric` parses them and `none` when `errors=\x7bcoerce\x7d` would
yield NaN. -/
structure RawRow where
  bookingId : String
  date : Option Nat
  bookingStatus : String
  pickup : Option String
  dropoff : Option String
  fare : Option Rat
  distance : Option Rat
  duration : Option Rat
  vehicleType : Option String
  paymentType : Option String
deriving DecidableEq

/-- Canonical record of the frame returned by `load_data`. `pandas.rename`
keeps columns without an entry in the mapping, so the unrenamed
`Booking Status` column is still part of the canonical frame; `status`
records it. -/
structure Trip where
  trip_id : String
  date : Option Nat
  status : String
  pickup : String
  dropoff : String
  fare : Option Rat
  distance_miles : Option Rat
  duration_min : Option Rat
  vehicle_type : String
  payment_type : String
deriving DecidableEq

/-- The fixed rename table of `load_data` (source header → canonical name);
`none` for headers that have no entry. -/
def column_mapping (c : String) : Option String :=
  if c = "Booking ID" then some "trip_id"
  else if c = "Date" then some "date"
  else if c = "Pickup Location" then some "pickup"
  else if c = "Drop Location" then some "dropoff"
  else if c = "Booking Value" then some "fare"
  else if c = "Ride Distance" then some "distance_miles"
  else if c = "Vehicle Type" then some "vehicle_type"
  else if c = "Payment Method" then some "payment_type"
  else if c = "Avg CTAT" then some "duration_min"
  else none

/-- Effect of `df.rename(columns=column_mapping)` on the header list: a column
with an entry in the table is renamed, any other column keeps its name (pandas
`rename` never drops a column). -/
def renameColumns (cols : List String) : List String :=
  cols.map (fun c => (column_mapping c).getD c)

/-- Effect of `.str.replace` removing every double-quote character, as applied
to `trip_id`. -/
def stripQuotes (s : String) : String :=
  (s.toList.filter (fun c => c ≠ '"')).asString

/-- Row-level part of `load_data` after the status and fare filters: clean
`trip_id`, keep the parsed cells, and `fillna` the four string columns with
the literal string Unknown. -/
def mkTrip (r : RawRow) : Trip :=
  { trip_id := stripQuotes r.bookingId
    date := r.date
    status := r.bookingStatus
    pickup := r.pickup.getD "Unknown"
    dropoff := r.dropoff.getD "Unknown"
    fare := r.fare
    distance_miles := r.distance
    duration_min := r.duration
    vehicle_type := r.vehicleType.getD "Unknown"
    payment_type := r.paymentType.getD "Unknown" }

/-- Embedding of `load_data`. The steps, in source order: `pd.to_datetime`
is called without `errors=coerce`, so it raises as soon as any row of the
whole file has an unparsable date, and the surrounding `try` then returns an
empty frame; otherwise keep the rows whose `Booking Status` is exactly
`Completed`, coerce the numeric columns (already represented by their parse
results), drop rows with a null fare, and clean the string columns. -/
def load_data (rows : List RawRow) : List Trip :=
  if rows.all (fun r => r.date.isSome) then
    ((rows.filter (fun r => r.bookingStatus = "Completed")).filter
        (fun r => r.fare.isSome)).map mkTrip
  else []

/-- Filter criteria handed to `apply_filters` by the sidebar: an optional
inclusive day range and three multiselect value lists. -/
structure Criteria where
  date_range : Option (Nat × Nat)
  pickup_filter : List String
  dropoff_filter : List String
  vehicle_filter : List String
deriving DecidableEq

/-- Truncate an epoch-seconds timestamp to its calendar day, as `.dt.date`
does. -/
def toDay (t : Nat) : Nat := t / 86400

/-- Date-range predicate of `apply_filters`: the record's date, truncated to
a day, lies in `[lo, hi]`; a null date compares false on both sides, as NaT
does in pandas. -/
def dateOk (lo hi : Nat) (t : Trip) : Bool :=
  match t.date with
  | some d => decide (lo ≤ toDay d) && decide (toDay d ≤ hi)
  | none => false

/-- Date stage of `apply_filters`: `if date_range:` — filter only when a
range is supplied. -/
def dateFilter (dr : Option (Nat × Nat)) (df : List Trip) : List Trip :=
  match dr with
  | some (lo, hi) => df.filter (dateOk lo hi)
  | none => df

/-- One categorical stage of `apply_filters`: restrict to the selected values
only when the selection is non-empty (a Python empty list is falsy) and does
not contain the sentinel All. -/
def catFilter (sel : List String) (field : Trip → String) (df : List Trip) : List Trip :=
  if sel ≠ [] ∧ "All" ∉ sel then df.filter (fun t => sel.contains (field t)) else df

/-- Embedding of `apply_filters`: the date stage, then the pickup, dropoff
and vehicle-type stages, in source order. -/
def apply_filters (df : List Trip) (c : Criteria) : List Trip :=
  catFilter c.vehicle_filter Trip.vehicle_type
    (catFilter c.dropoff_filter Trip.dropoff
      (catFilter c.pickup_filter Trip.pickup (dateFilter c.date_range df)))

/-- Stable insertion into a list sorted by the strict comparator `lt`: the new
element goes in front of the first element not strictly below it. -/
def insertSorted (lt : α → α → Bool) (x : α) : List α → List α
  | [] => [x]
  | y :: ys => if lt y x then y :: insertSorted lt x ys else x :: y :: ys

/-- Stable insertion sort by the strict comparator `lt`; this is the sort
numpy's quicksort entry point actually runs on small arrays. -/
def isort (lt : α → α → Bool) : List α → List α
  | [] => []
  | x :: xs => insertSorted lt x (isort lt xs)

/-- Fare cell of a record with null read as 0, which is how a NaN
participates in a pandas `sum` (it is skipped). -/
def fareVal (t : Trip) : Rat := t.fare.getD 0

/-- pandas `df[fare].sum()`: sum of the fare column, skipping nulls. -/
def sumFares (df : List Trip) : Rat := (df.map fareVal).sum

/-- Comparator for `Nat` keys. -/
def natLt (a b : Nat) : Bool := decide (a < b)

/-- Comparator for `String` keys; pandas sorts group labels with the native
Python string order, lexicographic on code points, which is the order on the
underlying character lists. -/
def strLt (a b : String) : Bool := decide (a.data < b.data)

/-- Comparator on (key, fare sum) pairs by the fare sum, the single sort key
of `sort_values(fare)`. -/
def fareLt (a b : κ × Rat) : Bool := decide (a.2 < b.2)

/-- pandas `df.groupby(key)[fare].sum()`: the distinct keys in ascending
order (`groupby` sorts group keys by default), each paired with the fare sum
of its group. -/
def groupSum [DecidableEq κ] (lt : κ → κ → Bool) (key : Trip → κ) (df : List Trip) :
    List (κ × Rat) :=
  (isort lt (df.map key).dedup).map
    (fun k => (k, sumFares (df.filter (fun t => decide (key t = k)))))

/-- Data behind `create_donut_chart`: revenue grouped by one categorical
column. -/
def create_donut_chart (col : Trip → String) (df : List Trip) : List (String × Rat) :=
  groupSum strLt col df

/-- Data behind `create_trend_chart`: revenue grouped by calendar day.
`groupby` over `.dt.date` drops rows whose group key is NaT. -/
def create_trend_chart (df : List Trip) : List (Nat × Rat) :=
  groupSum natLt (fun t => toDay (t.date.getD 0)) (df.filter (fun t => t.date.isSome))

/-- Predicate form of one categorical stage of `apply_filters`: what a record
must satisfy to survive it. -/
def catPass (sel : List String) (field : Trip → String) (t : Trip) : Bool :=
  if sel ≠ [] ∧ "All" ∉ sel then sel.contains (field t) else true

/-- Predicate form of the date stage of `apply_filters`. -/
def datePass (dr : Option (Nat × Nat)) (t : Trip) : Bool :=
  match dr with
  | some (lo, hi) => dateOk lo hi t
  | none => true

/-- Conjunction of the four stage predicates of `apply_filters`, in the
nesting order produced by composing the stages. -/
def fullPass (c : Criteria) (t : Trip) : Bool :=
  catPass c.vehicle_filter Trip.vehicle_type t && catPass c.dropoff_filter Trip.dropoff t &&
    catPass c.pickup_filter Trip.pickup t && datePass c.date_range t

/-- A raw row that survives every step of `load_data`: completed status,
parsable date and fare, quoted booking id. -/
def goodRow : RawRow :=
  { bookingId := "\"BID1\"", date := some 1704100000, bookingStatus := "Completed",
    pickup := some "A", dropoff := some "X", fare := some 100, distance := some 5,
    duration := some 20, vehicleType := some "Sedan", paymentType := some "Cash" }

/-- A completed row with parsable fare whose date string `pd.to_datetime`
cannot parse. -/
def badDateRow : RawRow :=
  { goodRow with bookingId := "BID2", date := none, fare := some 50 }

/-- A completed row whose fare cell is the unparsable string N/A, so numeric
coercion yields null. -/
def naFareRow : RawRow :=
  { goodRow with bookingId := "BID3", fare := none }

/-- A cancelled row with fare 999 and otherwise clean cells. -/
def cancelled999 : RawRow :=
  { goodRow with bookingId := "BID4", bookingStatus := "Cancelled", fare := some 999 }

/-- A canonical record with pickup location A and fare 10. -/
def tripA : Trip :=
  { trip_id := "T1", date := some 1704100000, status := "Completed", pickup := "A",
    dropoff := "X", fare := some 10, distance_miles := none, duration_min := none,
    vehicle_type := "Sedan", payment_type := "Cash" }

/-- Scenario record: 2024-01-01 (day 19723), pickup A, fare 100. -/
def tA1 : Trip := { tripA with fare := some 100 }

/-- Scenario record: 2024-01-01 (day 19723), pickup B, fare 50. -/
def tB1 : Trip := { tripA with trip_id := "T2", pickup := "B", fare := some 50 }

/-- Scenario record: 2024-01-02 (day 19724), pickup A, fare 25. -/
def tA2 : Trip := { tripA with trip_id := "T3", date := some 1704200000, fare := some 25 }

/-- Header row of the source CSV. The code itself witnesses that the file has
a `Booking Status` column besides the nine renamed ones: right after the
rename it filters on `df[..]` with that original name. -/
def sourceHeader : List String :=
  ["Date", "Time", "Booking ID", "Booking Status", "Customer ID", "Vehicle Type",
   "Pickup Location", "Drop Location", "Avg VTAT", "Avg CTAT", "Booking Value",
   "Payment Method", "Ride Distance", "Driver Ratings", "Customer Rating"]

/-- Inserting into a list is, up to permutation, consing. -/
theorem insertSorted_perm (lt : α → α → Bool) (x : α) (l : List α) :
    (insertSorted lt x l).Perm (x :: l) := by
  induction l with
  | nil => exact List.Perm.refl _
  | cons y ys ih =>
    unfold insertSorted
    by_cases h : lt y x = true
    · rw [if_pos h]
      exact (ih.cons y).trans (List.Perm.swap x y ys)
    · rw [if_neg h]

/-- Insertion sort permutes its input. -/
theorem isort_perm (lt : α → α → Bool) (l : List α) : (isort lt l).Perm l := by
  induction l with
  | nil => exact List.Perm.refl _
  | cons x xs ih =>
    exact (insertSorted_perm lt x (isort lt xs)).trans (ih.cons x)

/-- Inserting into a list sorted by `lt` keeps it sorted, for a comparator
whose non-strict complement is transitive and which is asymmetric. -/
theorem insertSorted_pairwise (lt : α → α → Bool)
    (Htrans : ∀ a b c, lt b a = false → lt c b = false → lt c a = false)
    (Hasym : ∀ a b, lt a b = true → lt b a = false)
    (x : α) (l : List α) (hl : l.Pairwise (fun a b => lt b a = false)) :
    (insertSorted lt x l).Pairwise (fun a b => lt b a = false) := by
  induction l with
  | nil => simp [insertSorted]
  | cons y ys ih =>
    rw [List.pairwise_cons] at hl
    unfold insertSorted
    by_cases h : lt y x = true
    · rw [if_pos h]
      rw [List.pairwise_cons]
      refine ⟨?_, ih hl.2⟩
      intro z hz
      rcases List.mem_cons.mp ((insertSorted_perm lt x ys).mem_iff.mp hz) with rfl | hzys
      · exact Hasym y z h
      · exact hl.1 z hzys
    · rw [if_neg h]
      have hyx : lt y x = false := by
        cases hcase : lt y x
        · rfl
        · exact absurd hcase h
      rw [List.pairwise_cons]
      refine ⟨?_, List.pairwise_cons.mpr hl⟩
      intro z hz
      rcases List.mem_cons.mp hz with rfl | hzys
      · exact hyx
      · exact Htrans x y z hyx (hl.1 z hzys)

/-- Insertion sort sorts, under the same comparator hypotheses. -/
theorem isort_pairwise (lt : α → α → Bool)
    (Htrans : ∀ a b c, lt b a = false → lt c b = false → lt c a = false)
    (Hasym : ∀ a b, lt a b = true → lt b a = false)
    (l : List α) : (isort lt l).Pairwise (fun a b => lt b a = false) := by
  induction l with
  | nil => simp [isort]
  | cons x xs ih => exact insertSorted_pairwise lt Htrans Hasym x _ ih

/-- Non-strict complement of `natLt` is transitive. -/
theorem natLt_trans (a b c : Nat) (h1 : natLt b a = false) (h2 : natLt c b = false) :
    natLt c a = false := by
  simp only [natLt, decide_eq_false_iff_not, not_lt] at h1 h2 ⊢
  exact le_trans h1 h2

/-- `natLt` is asymmetric. -/
theorem natLt_asym (a b : Nat) (h : natLt a b = true) : natLt b a = false := by
  simp only [natLt, decide_eq_true_eq] at h
  simp only [natLt, decide_eq_false_iff_not, not_lt]
  exact le_of_lt h

/-- Non-strict complement of `fareLt` is transitive. -/
theorem fareLt_trans (a b c : κ × Rat) (h1 : fareLt b a = false) (h2 : fareLt c b = false) :
    fareLt c a = false := by
  simp only [fareLt, decide_eq_false_iff_not, not_lt] at h1 h2 ⊢
  exact le_trans h1 h2

/-- `fareLt` is asymmetric. -/
theorem fareLt_asym (a b : κ × Rat) (h : fareLt a b = true) : fareLt b a = false := by
  simp only [fareLt, decide_eq_true_eq] at h
  simp only [fareLt, decide_eq_false_iff_not, not_lt]
  exact le_of_lt h

/-- Two pairwise facts about one list combine pointwise. -/
theorem pairwise_and {R S : α → α → Prop} :
    ∀ {l : List α}, l.Pairwise R → l.Pairwise S → l.Pairwise (fun a b => R a b ∧ S a b)
  | [], _, _ => List.Pairwise.nil
  | _ :: _, List.Pairwise.cons hR hRs, List.Pairwise.cons hS hSs =>
    List.Pairwise.cons (fun b hb => ⟨hR b hb, hS b hb⟩) (pairwise_and hRs hSs)

/-- The rows of a grouped-sum frame are pairwise related by anything implied
by weak comparator order plus distinctness of their keys: group keys come out
sorted and duplicate-free. -/
theorem groupSum_pairwise [DecidableEq κ] (lt : κ → κ → Bool)
    (Htrans : ∀ a b c, lt b a = false → lt c b = false → lt c a = false)
    (Hasym : ∀ a b, lt a b = true → lt b a = false)
    (key : Trip → κ) (df : List Trip) (P : κ × Rat → κ × Rat → Prop)
    (HP : ∀ a b : κ × Rat, lt b.1 a.1 = false → a.1 ≠ b.1 → P a b) :
    (groupSum lt key df).Pairwise P := by
  unfold groupSum
  rw [List.pairwise_map]
  have h1 : (isort lt (df.map key).dedup).Pairwise (fun a b => lt b a = false) :=
    isort_pairwise lt Htrans Hasym _
  have h2 : (isort lt (df.map key).dedup).Pairwise (fun a b => a ≠ b) :=
    ((isort_perm lt _).nodup_iff).mpr (List.nodup_dedup _)
  exact (pairwise_and h1 h2).imp (fun hab => HP _ _ hab.1 hab.2)

/-- The fare sum stored with a key of a grouped-sum frame is the fare sum of
that key's group. -/
theorem groupSum_mem_val [DecidableEq κ] (lt : κ → κ → Bool) (key : Trip → κ)
    (df : List Trip) (k : κ) (s : Rat) (h : (k, s) ∈ groupSum lt key df) :
    s = sumFares (df.filter (fun t => decide (key t = k))) := by
  unfold groupSum at h
  obtain ⟨k', _, hk⟩ := List.mem_map.mp h
  rw [Prod.mk.injEq] at hk
  obtain ⟨rfl, rfl⟩ := hk
  rfl

/-- A key appears in the grouped-sum frame exactly when some record of the
input carries it: groups exist exactly for the observed keys. -/
theorem groupSum_exists_mem [DecidableEq κ] (lt : κ → κ → Bool) (key : Trip → κ)
    (df : List Trip) (k : κ) :
    (∃ s, (k, s) ∈ groupSum lt key df) ↔ ∃ t ∈ df, key t = k := by
  unfold groupSum
  constructor
  · rintro ⟨s, hs⟩
    obtain ⟨k', hk', hk⟩ := List.mem_map.mp hs
    rw [Prod.mk.injEq] at hk
    obtain ⟨rfl, -⟩ := hk
    have hmem : k' ∈ (df.map key).dedup := ((isort_perm lt _).mem_iff).mp hk'
    obtain ⟨t, ht, hkt⟩ := List.mem_map.mp (List.mem_dedup.mp hmem)
    exact ⟨t, ht, hkt⟩
  · rintro ⟨t, ht, rfl⟩
    refine ⟨_, List.mem_map.mpr ⟨key t, ?_, rfl⟩⟩
    exact ((isort_perm lt _).mem_iff).mpr (List.mem_dedup.mpr (List.mem_map_of_mem key ht))

/-- Fare sum of a cons. -/
theorem sumFares_cons (t : Trip) (l : List Trip) :
    sumFares (t :: l) = fareVal t + sumFares l := by
  simp [sumFares]

/-- A sum of one indicator over a duplicate-free list containing the hit. -/
theorem sum_ite_key_zero [DecidableEq κ] (c : κ) (v : Rat) :
    ∀ K : List κ, c ∉ K → (K.map (fun k => if c = k then v else 0)).sum = 0 := by
  intro K
  induction K with
  | nil => simp
  | cons k ks ih =>
    intro h
    have h1 : c ≠ k := fun hc => h (hc ▸ List.mem_cons_self k ks)
    have h2 : c ∉ ks := fun hc => h (List.mem_cons_of_mem k hc)
    simp [h1, ih h2]

/-- Summing an indicator of one key over a duplicate-free key list that
contains the key recovers the value. -/
theorem sum_ite_key [DecidableEq κ] (c : κ) (v : Rat) :
    ∀ K : List κ, K.Nodup → c ∈ K → (K.map (fun k => if c = k then v else 0)).sum = v := by
  intro K
  induction K with
  | nil => intro _ h; exact absurd h (List.not_mem_nil c)
  | cons k ks ih =>
    intro hnd hc
    rw [List.nodup_cons] at hnd
    by_cases h : c = k
    · subst h
      simp only [List.map_cons, List.sum_cons, if_pos rfl]
      rw [sum_ite_key_zero c v ks hnd.1]
      simp
    · rcases List.mem_cons.mp hc with rfl | hcs
      · exact absurd rfl h
      · simp only [List.map_cons, List.sum_cons, if_neg h]
        rw [ih hnd.2 hcs]
        ring

/-- Splitting the fare sum of a frame along any duplicate-free key list that
covers every record's key loses nothing: the groups partition the frame. -/
theorem groupSum_fiber_sum [DecidableEq κ] (key : Trip → κ) :
    ∀ (df : List Trip) (K : List κ), K.Nodup → (∀ t ∈ df, key t ∈ K) →
      (K.map (fun k => sumFares (df.filter (fun t => decide (key t = k))))).sum = sumFares df := by
  intro df
  induction df with
  | nil =>
    intro K _ _
    simp [sumFares]
  | cons t rest ih =>
    intro K hnd hcov
    have hsplit : ∀ k : κ, sumFares ((t :: rest).filter (fun s => decide (key s = k))) =
        (if key t = k then fareVal t else 0) +
          sumFares (rest.filter (fun s => decide (key s = k))) := by
      intro k
      by_cases h : key t = k
      · simp [List.filter_cons, h, sumFares_cons]
      · simp [List.filter_cons, h]
    calc (K.map (fun k => sumFares ((t :: rest).filter (fun s => decide (key s = k))))).sum
        = (K.map (fun k => (if key t = k then fareVal t else 0) +
            sumFares (rest.filter (fun s => decide (key s = k))))).sum := by
          simp only [hsplit]
      _ = (K.map (fun k => if key t = k then fareVal t else 0)).sum +
            (K.map (fun k => sumFares (rest.filter (fun s => decide (key s = k))))).sum :=
          List.sum_map_add
      _ = fareVal t + sumFares rest := by
          rw [sum_ite_key (key t) (fareVal t) K hnd (hcov t (List.mem_cons_self t rest)),
            ih K hnd (fun s hs => hcov s (List.mem_cons_of_mem t hs))]
      _ = sumFares (t :: rest) := (sumFares_cons t rest).symm

/-- A categorical stage is an honest filter by its stage predicate. -/
theorem catFilter_eq_filter (sel : List String) (field : Trip → String) (df : List Trip) :
    catFilter sel field df = df.filter (catPass sel field) := by
  unfold catFilter catPass
  by_cases h : sel ≠ [] ∧ "All" ∉ sel
  · simp only [if_pos h]
  · simp only [if_neg h, List.filter_true]

/-- The date stage is an honest filter by its stage predicate. -/
theorem dateFilter_eq_filter (dr : Option (Nat × Nat)) (df : List Trip) :
    dateFilter dr df = df.filter (datePass dr) := by
  cases dr with
  | none => exact (List.filter_true df).symm
  | some p =>
    cases p with
    | mk lo hi => rfl

/-- The whole of `apply_filters` is one filter by the conjunction of its four
stage predicates. -/
theorem apply_filters_eq_filter (df : List Trip) (c : Criteria) :
    apply_filters df c = df.filter (fullPass c) := by
  unfold apply_filters fullPass
  rw [dateFilter_eq_filter, catFilter_eq_filter, catFilter_eq_filter, catFilter_eq_filter,
    List.filter_filter, List.filter_filter, List.filter_filter]

/-- C1 counterexample. The claim says an unparsable date is non-fatal and
local to its row, the row staying in the canonical dataset with a null date.
In the code `pd.to_datetime` is called without an error policy, so it raises
and the whole load returns the empty frame: the bad row — completed status,
parsable fare — is not retained, and even the clean row around it is lost,
while the same clean row alone does survive. -/
theorem c1_counterexample :
    load_data [goodRow, badDateRow] = [] ∧ load_data [goodRow] = [mkTrip goodRow] ∧
    badDateRow.bookingStatus = "Completed" ∧ badDateRow.fare.isSome = true := by
  decide

/-- C1 amended: one unparsable date in any row aborts the whole load — the
datetime conversion raises, the handler catches it, and the canonical
dataset comes back empty, retaining no row at all. -/
theorem c1_unparsable_date_aborts_load (rows : List RawRow)
    (h : ∃ r ∈ rows, r.date = none) : load_data rows = [] := by
  obtain ⟨r, hr, hd⟩ := h
  have hall : ¬ (rows.all (fun r => r.date.isSome) = true) := by
    intro hall
    have hx := List.all_eq_true.mp hall r hr
    rw [hd] at hx
    exact Bool.false_ne_true hx
  unfold load_data
  rw [if_neg hall]

/-- C1 witness: the amended theorem applied to the concrete bad-date row. -/
theorem c1_witness : load_data [badDateRow] = [] :=
  c1_unparsable_date_aborts_load [badDateRow] ⟨badDateRow, by decide, rfl⟩

/-- C2 counterexample. The claim says every source field without an entry in
the rename table is absent from the canonical schema. `Booking Status` has
no entry, yet renaming the source header keeps it — pandas `rename` retains
unmapped columns, and the code itself reads `Booking Status` after the
rename. -/
theorem c2_counterexample :
    column_mapping "Booking Status" = none ∧
    "Booking Status" ∈ renameColumns sourceHeader := by
  decide

/-- C2 amended: the rename table maps only the nine listed source fields to
canonical names; a source field without an entry is retained in the schema
under its original name, not dropped. -/
theorem c2_unmapped_fields_retained (cols : List String) (c : String)
    (h1 : c ∈ cols) (h2 : column_mapping c = none) : c ∈ renameColumns cols := by
  unfold renameColumns
  exact List.mem_map.mpr ⟨c, h1, by rw [h2]; rfl⟩

/-- C2 witness: the amended theorem applied to `Booking Status` in the
source header. -/
theorem c2_witness : "Booking Status" ∈ renameColumns sourceHeader :=
  c2_unmapped_fields_retained sourceHeader "Booking Status" (by decide) (by decide)

/-- C3: every record of the canonical dataset carries status exactly
`Completed`, and the cancelled row with fare 999 yields nothing — so it can
appear in no aggregate computed from the canonical dataset. -/
theorem c3_canonical_status_completed :
    (∀ (rows : List RawRow), ∀ t ∈ load_data rows, t.status = "Completed") ∧
    load_data [cancelled999] = [] := by
  refine ⟨?_, by decide⟩
  intro rows t ht
  unfold load_data at ht
  split at ht
  · obtain ⟨r, hr, rfl⟩ := List.mem_map.mp ht
    have h1 := (List.mem_filter.mp (List.mem_filter.mp hr).1).2
    simp only [decide_eq_true_eq] at h1
    simpa [mkTrip] using h1
  · simp at ht

/-- C3 witness: the status invariant applied to the one record loaded from
the concrete good row. -/
theorem c3_witness : (mkTrip goodRow).status = "Completed" :=
  c3_canonical_status_completed.1 [goodRow] (mkTrip goodRow) (by decide)

/-- C4: every record of the canonical dataset has a present (non-null)
fare, and the completed row whose fare cell is unparsable is dropped
entirely. -/
theorem c4_canonical_fare_present :
    (∀ (rows : List RawRow), ∀ t ∈ load_data rows, t.fare.isSome = true) ∧
    load_data [naFareRow] = [] := by
  refine ⟨?_, by decide⟩
  intro rows t ht
  unfold load_data at ht
  split at ht
  · obtain ⟨r, hr, rfl⟩ := List.mem_map.mp ht
    have h2 := (List.mem_filter.mp hr).2
    simpa [mkTrip] using h2
  · simp at ht

/-- C4 witness: the fare invariant applied to the one record loaded from the
concrete good row. -/
theorem c4_witness : (mkTrip goodRow).fare.isSome = true :=
  c4_canonical_fare_present.1 [goodRow] (mkTrip goodRow) (by decide)

/-- C5: filtering with no date range and the select-all sentinel in all
three category selections returns the input dataset unchanged (so equal as a
multiset of records in particular). -/
theorem c5_select_all_identity (df : List Trip) :
    apply_filters df ⟨none, ["All"], ["All"], ["All"]⟩ = df := by
  simp [apply_filters, catFilter, dateFilter]

/-- C9: applying the same filter criteria twice gives the same result as
applying them once. -/
theorem c9_filter_idempotent (df : List Trip) (c : Criteria) :
    apply_filters (apply_filters df c) c = apply_filters df c := by
  simp only [apply_filters_eq_filter]
  rw [List.filter_filter]
  exact List.filter_congr (fun a _ => by rw [Bool.and_self])

/-- A categorical stage of `apply_filters` skips entirely when its selection
is empty (a Python empty list is falsy) or contains the sentinel All. -/
theorem catFilter_all_or_empty (sel : List String) (field : Trip → String)
    (l : List Trip) (h : sel = [] ∨ "All" ∈ sel) : catFilter sel field l = l := by
  unfold catFilter
  rw [if_neg]
  rcases h with h | h
  · exact fun hc => hc.1 h
  · exact fun hc => hc.2 h

/-- C10: a category criterion supplied as an explicitly empty selection, or
as any selection containing the sentinel All, places no restriction on its
own field while the other criteria stay arbitrary: whichever of the three
category stages receives such a selection drops out of the pipeline, and the
date stage and the two remaining category stages act unchanged. -/
theorem c10_all_or_empty_selection_unrestricted (df : List Trip)
    (dr : Option (Nat × Nat)) (p d v sel : List String)
    (h : sel = [] ∨ "All" ∈ sel) :
    apply_filters df ⟨dr, sel, d, v⟩ =
      catFilter v Trip.vehicle_type (catFilter d Trip.dropoff (dateFilter dr df)) ∧
    apply_filters df ⟨dr, p, sel, v⟩ =
      catFilter v Trip.vehicle_type (catFilter p Trip.pickup (dateFilter dr df)) ∧
    apply_filters df ⟨dr, p, d, sel⟩ =
      catFilter d Trip.dropoff (catFilter p Trip.pickup (dateFilter dr df)) := by
  refine ⟨?_, ?_, ?_⟩ <;> simp only [apply_filters] <;>
    rw [catFilter_all_or_empty sel _ _ h]

/-- C10 witness: the pickup conjunct applied to a one-record frame with an
empty pickup selection while the dropoff and vehicle selections still
restrict (a mixed case): the pickup stage vanishes, the others remain. -/
theorem c10_witness :
    apply_filters [tripA] ⟨none, [], ["X"], ["Sedan"]⟩ =
      catFilter ["Sedan"] Trip.vehicle_type
        (catFilter ["X"] Trip.dropoff (dateFilter none [tripA])) :=
  (c10_all_or_empty_selection_unrestricted [tripA] none ["P"] ["X"] ["Sedan"] []
    (Or.inl rfl)).1

/-- C7: the categorical revenue breakdown partitions revenue — summing the
per-category fare sums gives exactly the fare total of the input dataset. -/
theorem c7_breakdown_preserves_total (col : Trip → String) (df : List Trip) :
    ((create_donut_chart col df).map Prod.snd).sum = sumFares df := by
  unfold create_donut_chart groupSum
  rw [List.map_map]
  have hcomp : (Prod.snd ∘ fun k : String =>
      (k, sumFares (df.filter (fun t => decide (col t = k))))) =
      fun k => sumFares (df.filter (fun t => decide (col t = k))) := rfl
  rw [hcomp]
  rw [((isort_perm strLt (df.map col).dedup).map
    (fun k => sumFares (df.filter (fun t => decide (col t = k))))).sum_eq]
  exact groupSum_fiber_sum col df ((df.map col).dedup) (List.nodup_dedup _)
    (fun t ht => List.mem_dedup.mpr (List.mem_map_of_mem col ht))

/-- C8: the temporal revenue trend is keyed by calendar day in strictly
ascending order; the value stored with a day is the fare sum of exactly the
records falling on that day; a day appears exactly when some record falls on
it (days with no records are omitted); and the three-row scenario — fares
100 and 50 on day 19723 (2024-01-01) and 25 on day 19724 (2024-01-02) —
yields the pairs (19723, 150) then (19724, 25). -/
theorem c8_trend_daily_revenue :
    (∀ df : List Trip, (create_trend_chart df).Pairwise (fun a b => a.1 < b.1)) ∧
    (∀ (df : List Trip) (d : Nat) (s : Rat), (d, s) ∈ create_trend_chart df →
        s = sumFares (df.filter (fun t => decide (t.date.map toDay = some d)))) ∧
    (∀ (df : List Trip) (d : Nat), (∃ s, (d, s) ∈ create_trend_chart df) ↔
        ∃ t ∈ df, t.date.map toDay = some d) ∧
    create_trend_chart [tA1, tB1, tA2] = [(19723, 150), (19724, 25)] := by
  refine ⟨?_, ?_, ?_, ?_⟩
  · intro df
    unfold create_trend_chart
    refine groupSum_pairwise natLt natLt_trans natLt_asym _ _ _ ?_
    intro a b h1 h2
    have hle : a.1 ≤ b.1 := not_lt.mp (by simpa [natLt] using h1)
    exact lt_of_le_of_ne hle h2
  · intro df d s h
    unfold create_trend_chart at h
    have hval := groupSum_mem_val natLt _ _ d s h
    have hframes : (df.filter (fun t => t.date.isSome)).filter
          (fun t => decide (toDay (t.date.getD 0) = d)) =
        df.filter (fun t => decide (t.date.map toDay = some d)) := by
      rw [List.filter_filter]
      refine List.filter_congr ?_
      intro t _
      cases ht : t.date with
      | none => simp [ht]
      | some x => simp [ht]
    rw [hval, ← hframes]
  · intro df d
    unfold create_trend_chart
    rw [groupSum_exists_mem]
    constructor
    · rintro ⟨t, ht, hk⟩
      obtain ⟨htdf, hts⟩ := List.mem_filter.mp ht
      obtain ⟨x, hx⟩ := Option.isSome_iff_exists.mp hts
      refine ⟨t, htdf, ?_⟩
      simp only [hx, Option.getD_some] at hk
      rw [hx]
      simpa using hk
    · rintro ⟨t, ht, hk⟩
      obtain ⟨x, hx⟩ : ∃ x, t.date = some x := by
        cases hcd : t.date
        · simp [hcd] at hk
        · exact ⟨_, rfl⟩
      have hk2 : toDay x = d := by simpa [hx] using hk
      refine ⟨t, List.mem_filter.mpr ⟨ht, by rw [hx]; rfl⟩, ?_⟩
      simp [hx, hk2]
  · norm_num +decide [create_trend_chart, groupSum, isort, insertSorted, natLt, toDay,
      sumFares, fareVal, tA1, tB1, tA2, tripA, List.dedup]

/-- C8 witness: the per-day sum statement applied to the scenario frame at
day 19723 and value 150. -/
theorem c8_witness :
    (150 : Rat) = sumFares ([tA1, tB1, tA2].filter
      (fun t => decide (t.date.map toDay = some 19723))) :=
  c8_trend_daily_revenue.2.1 [tA1, tB1, tA2] 19723 150 (by
    rw [c8_trend_daily_revenue.2.2.2]
    decide)
